import Mathlib

/-!
Shallow embedding of codahale/safecookie (Go).

The repository seals an HTTP cookie's value with an AEAD, using either a
canonicalized form of the cookie's non-value attributes or just the cookie's
name as associated data, and transports the result as URL-safe base64 in the
cookie's value.  The source contains four variants of the package:

* `FullAttr` — `SafeCookie.Seal`/`SafeCookie.Open` operating in place on an
  `http.Cookie`, associated data = `canonicalize` of all non-value attributes
  (src/safecookie.go lines 37–99);
* `Named` — `SafeCookie.Seal`/`SafeCookie.Open` over raw `[]byte` data,
  associated data = the cookie's name (lines 132–187);
* `Gob` — the `Named` protocol composed with a gob payload codec
  (lines 226–287);
* `Free` — free functions `Seal`/`Open`/`AESGCM` with full-attribute
  associated data (lines 301–358).

Go byte strings are embedded as `List (Fin 256)`.  The `encoding/base64` URL
codec and the relevant parts of `net/http.Cookie.String` (external
collaborators of the package) are embedded executable below.  The
`cipher.AEAD` interface the package is generic over is embedded as a structure
of functions, exactly as the Go code receives it.
-/

/-- Go byte, embedded as `Fin 256`. -/
abbrev Byte := Fin 256

/-- Go byte string (`[]byte` / `string`), embedded as a list of bytes. -/
abbrev GoStr := List Byte

/-- Byte from a natural number, reduced mod 256 (the wrap never fires for the
ASCII data used here). -/
def byt (n : Nat) : Byte := ⟨n % 256, Nat.mod_lt _ (by decide)⟩

/-- ASCII bytes of a Lean string literal, used to transcribe the Go string
literals of the source. -/
def gostr (s : String) : GoStr := s.data.map (fun ch => byt ch.toNat)

/-! ## Envelope codec: encoding/base64 URLEncoding (external collaborator)

The Go source calls `base64.URLEncoding.EncodeToString` and
`base64.URLEncoding.DecodeString`: URL-safe alphabet (`-`, `_`) with `=`
padding; decoding reports `CorruptInputError` on anything not canonical under
that alphabet, after skipping `\r`/`\n` bytes. -/

/-- The URL-safe base64 alphabet of `base64.URLEncoding`. -/
def b64chars : GoStr :=
  gostr "ABCDEFGHIJKLMNOPQRSTUVWXYZabcdefghijklmnopqrstuvwxyz0123456789-_"

/-- Alphabet character for a 6-bit value. -/
def b64char (n : Nat) : Byte := b64chars.getD n (byt 65)

/-- Index of a byte in the base64 alphabet, `none` for a non-alphabet byte. -/
def b64val (c : Byte) : Option Nat := b64chars.findIdx? (fun x => x = c)

/-- Base64 (URL alphabet, padded) encoding of a byte string, as
`base64.URLEncoding.EncodeToString` produces it: 3-byte groups become 4
characters, a trailing 1- or 2-byte group is padded with `=` (byte 61). -/
def b64encode : GoStr → GoStr
  | [] => []
  | [a] => [b64char (a.val / 4), b64char (a.val % 4 * 16), byt 61, byt 61]
  | [a, b] => [b64char (a.val / 4), b64char (a.val % 4 * 16 + b.val / 16),
               b64char (b.val % 16 * 4), byt 61]
  | a :: b :: c :: rest =>
      b64char (a.val / 4) :: b64char (a.val % 4 * 16 + b.val / 16) ::
      b64char (b.val % 16 * 4 + c.val / 64) :: b64char (c.val % 64) ::
      b64encode rest

/-- Base64 (URL alphabet, padded) decoding, `none` exactly where Go's decoder
reports a `CorruptInputError`: non-alphabet bytes, a length that is not a
multiple of four, or padding anywhere but at the very end. -/
def b64decode : GoStr → Option GoStr
  | [] => some []
  | c0 :: c1 :: c2 :: c3 :: rest =>
    (match b64val c0, b64val c1 with
     | some v0, some v1 =>
       if c2 = byt 61 then
         (if c3 = byt 61 ∧ rest = [] then some [byt (v0 * 4 + v1 / 16)] else none)
       else
         match b64val c2 with
         | some v2 =>
           if c3 = byt 61 then
             (if rest = [] then
                some [byt (v0 * 4 + v1 / 16), byt (v1 % 16 * 16 + v2 / 4)]
              else none)
           else
             match b64val c3 with
             | some v3 =>
               (b64decode rest).map (fun t =>
                 byt (v0 * 4 + v1 / 16) :: byt (v1 % 16 * 16 + v2 / 4) ::
                 byt (v2 % 4 * 64 + v3) :: t)
             | none => none
         | none => none
     | _, _ => none)
  | _ => none

/-- Go's `DecodeString` skips carriage returns and newlines before decoding. -/
def goDecodeString (s : GoStr) : Option GoStr :=
  b64decode (s.filter (fun x => !(x.val = 10 || x.val = 13)))

/-- Every 6-bit value decodes back from its alphabet character. -/
theorem b64val_b64char_fin : ∀ k : Fin 64, b64val (b64char k.val) = some k.val := by decide

/-- Alphabet characters are never the padding byte `=`. -/
theorem b64char_ne_pad_fin : ∀ k : Fin 64, b64char k.val ≠ byt 61 := by decide

/-- Alphabet characters lie in the alphabet. -/
theorem b64char_mem_fin : ∀ k : Fin 64, b64char k.val ∈ b64chars := by decide

theorem b64val_b64char {k : Nat} (h : k < 64) : b64val (b64char k) = some k :=
  b64val_b64char_fin ⟨k, h⟩

theorem b64char_ne_pad {k : Nat} (h : k < 64) : b64char k ≠ byt 61 :=
  b64char_ne_pad_fin ⟨k, h⟩

theorem b64char_mem {k : Nat} (h : k < 64) : b64char k ∈ b64chars :=
  b64char_mem_fin ⟨k, h⟩

theorem byt_eq_of_val {x : Nat} {a : Byte} (h : x = a.val) : byt x = a := by
  apply Fin.ext
  simp only [byt, h, Nat.mod_eq_of_lt a.isLt]

/-- The base64 codec round-trips: decoding an encoding recovers the bytes. -/
theorem b64_decode_encode (l : GoStr) : b64decode (b64encode l) = some l := by
  induction l using b64encode.induct with
  | case1 => rfl
  | case2 a =>
    have ha := a.isLt
    have h0 := b64val_b64char (show a.val / 4 < 64 by omega)
    have h1 := b64val_b64char (show a.val % 4 * 16 < 64 by omega)
    simp only [b64encode, b64decode, h0, h1]
    simp
    exact byt_eq_of_val (by omega)
  | case3 a b =>
    have ha := a.isLt
    have hb := b.isLt
    have h0 := b64val_b64char (show a.val / 4 < 64 by omega)
    have h1 := b64val_b64char (show a.val % 4 * 16 + b.val / 16 < 64 by omega)
    have h2 := b64val_b64char (show b.val % 16 * 4 < 64 by omega)
    have hne := b64char_ne_pad (show b.val % 16 * 4 < 64 by omega)
    simp only [b64encode, b64decode, h0, h1, if_neg hne, h2]
    simp
    repeat' apply And.intro
    all_goals exact byt_eq_of_val (by omega)
  | case4 a b c rest ih =>
    have ha := a.isLt
    have hb := b.isLt
    have hc := c.isLt
    have h0 := b64val_b64char (show a.val / 4 < 64 by omega)
    have h1 := b64val_b64char (show a.val % 4 * 16 + b.val / 16 < 64 by omega)
    have h2 := b64val_b64char (show b.val % 16 * 4 + c.val / 64 < 64 by omega)
    have h3 := b64val_b64char (show c.val % 64 < 64 by omega)
    have hne2 := b64char_ne_pad (show b.val % 16 * 4 + c.val / 64 < 64 by omega)
    have hne3 := b64char_ne_pad (show c.val % 64 < 64 by omega)
    simp only [b64encode, b64decode, h0, h1, if_neg hne2, h2, if_neg hne3, h3, ih]
    simp
    repeat' apply And.intro
    all_goals exact byt_eq_of_val (by omega)

set_option maxRecDepth 10000 in
/-- Every byte of an encoding is either an alphabet byte or the padding `=`. -/
theorem b64encode_mem (l : GoStr) :
    ∀ x ∈ b64encode l, x ∈ b64chars ∨ x = byt 61 := by
  induction l using b64encode.induct with
  | case1 => intro x hx; cases hx
  | case2 a =>
    have ha := a.isLt
    intro x hx
    simp only [b64encode, List.mem_cons, List.not_mem_nil, or_false] at hx
    rcases hx with h | h | h | h
    · subst h
      exact Or.inl (b64char_mem (by omega))
    · subst h
      exact Or.inl (b64char_mem (by omega))
    · exact Or.inr h
    · exact Or.inr h
  | case3 a b =>
    have ha := a.isLt
    have hb := b.isLt
    intro x hx
    simp only [b64encode, List.mem_cons, List.not_mem_nil, or_false] at hx
    rcases hx with h | h | h | h
    · subst h
      exact Or.inl (b64char_mem (by omega))
    · subst h
      exact Or.inl (b64char_mem (by omega))
    · subst h
      exact Or.inl (b64char_mem (by omega))
    · exact Or.inr h
  | case4 a b c rest ih =>
    have ha := a.isLt
    have hb := b.isLt
    have hc := c.isLt
    intro x hx
    simp only [b64encode, List.mem_cons] at hx
    rcases hx with h | h | h | h | h
    · subst h
      exact Or.inl (b64char_mem (by omega))
    · subst h
      exact Or.inl (b64char_mem (by omega))
    · subst h
      exact Or.inl (b64char_mem (by omega))
    · subst h
      exact Or.inl (b64char_mem (by omega))
    · exact ih x h

set_option maxRecDepth 10000 in
/-- No alphabet byte is a carriage return or newline. -/
theorem b64chars_no_crlf : ∀ x ∈ b64chars, (!(x.val = 10 || x.val = 13)) = true := by decide

/-- Go's `DecodeString` round-trips exactly on encoder output. -/
theorem goDecodeString_encode (l : GoStr) : goDecodeString (b64encode l) = some l := by
  unfold goDecodeString
  rw [List.filter_eq_self.mpr, b64_decode_encode]
  intro x hx
  rcases b64encode_mem l x hx with h | h
  · exact b64chars_no_crlf x h
  · subst h; decide

/-- Length of a padded base64 encoding. -/
theorem b64encode_length (l : GoStr) :
    (b64encode l).length = 4 * ((l.length + 2) / 3) := by
  induction l using b64encode.induct with
  | case1 => rfl
  | case2 a =>
    simp [b64encode]
  | case3 a b =>
    simp [b64encode]
  | case4 a b c rest ih =>
    simp only [b64encode, List.length_cons, ih]
    omega

/-- A base64 encoding of a non-empty byte string is strictly longer than the
byte string itself. -/
theorem b64encode_length_gt (l : GoStr) (h : 1 ≤ l.length) :
    l.length + 1 ≤ (b64encode l).length := by
  rw [b64encode_length]
  omega

/-! ## Cookie model: net/http.Cookie and Cookie.String (external collaborator)

The package's `canonicalize` copies the cookie, clears its value and returns
the bytes of `net/http.Cookie.String()`.  The fields below are exactly those
`Cookie.String` serializes (the era's `net/http` ignores `RawExpires`, `Raw`
and `Unparsed`, which are parse artifacts).  `Expires` is carried as its Unix
second count (`ExpiresUnix`), which is what the serialization condition
`c.Expires.Unix() > 0` inspects; the RFC-1123 date rendering of the `time`
package is modelled by `formatExpires`, an injective stand-in. -/

structure Cookie where
  Name : GoStr
  Value : GoStr
  Path : GoStr
  Domain : GoStr
  ExpiresUnix : Int
  MaxAge : Int
  Secure : Bool
  HttpOnly : Bool
deriving DecidableEq

/-- Go `sanitizeCookieName`: replaces `\n` and `\r` with `-`. -/
def sanitizeCookieName (n : GoStr) : GoStr :=
  n.map (fun b => if b.val = 10 ∨ b.val = 13 then byt 45 else b)

/-- Go `validCookieValueByte`: printable ASCII except `"`, `;` and `\`. -/
def validCookieValueByte (b : Byte) : Bool :=
  decide (32 ≤ b.val ∧ b.val < 127 ∧ b.val ≠ 34 ∧ b.val ≠ 59 ∧ b.val ≠ 92)

/-- Go `sanitizeCookieValue`: drops invalid bytes. -/
def sanitizeCookieValue (v : GoStr) : GoStr := v.filter validCookieValueByte

/-- Go `validCookiePathByte`: printable ASCII except `;`. -/
def validCookiePathByte (b : Byte) : Bool :=
  decide (32 ≤ b.val ∧ b.val < 127 ∧ b.val ≠ 59)

/-- Go `sanitizeCookiePath`: drops invalid bytes. -/
def sanitizeCookiePath (v : GoStr) : GoStr := v.filter validCookiePathByte

/-- Loop of Go `isCookieDomainName`, carrying the previous byte value, the
seen-a-letter flag and the current label length. -/
def isCookieDomainLoop : GoStr → Nat → Bool → Nat → Bool
  | [], last, ok, partlen =>
    if last = 45 ∨ partlen > 63 then false else ok
  | c :: s, last, ok, partlen =>
    if (97 ≤ c.val ∧ c.val ≤ 122) ∨ (65 ≤ c.val ∧ c.val ≤ 90) then
      isCookieDomainLoop s c.val true (partlen + 1)
    else if 48 ≤ c.val ∧ c.val ≤ 57 then
      isCookieDomainLoop s c.val ok (partlen + 1)
    else if c.val = 45 then
      if last = 46 then false
      else isCookieDomainLoop s c.val ok (partlen + 1)
    else if c.val = 46 then
      if last = 46 ∨ last = 45 ∨ partlen > 63 ∨ partlen = 0 then false
      else isCookieDomainLoop s c.val ok 0
    else false

/-- Go `isCookieDomainName`: RFC-1035 host-name check (labels of letters,
digits and hyphens, at least one letter, label length limits). -/
def isCookieDomainName (s : GoStr) : Bool :=
  if s.length = 0 ∨ s.length > 255 then false
  else
    isCookieDomainLoop
      (match s with
       | c :: rest => if c.val = 46 then rest else s
       | [] => s)
      46 false 0

/-- One dotted-quad component of an IPv4 address: 1–3 digits, value ≤ 255. -/
def ipv4Part (p : GoStr) : Bool :=
  decide (1 ≤ p.length ∧ p.length ≤ 3)
  && p.all (fun c => decide (48 ≤ c.val ∧ c.val ≤ 57))
  && decide ((p.foldl (fun acc c => acc * 10 + (c.val - 48)) 0) ≤ 255)

/-- Dotted-quad IPv4 test, standing for the `net.ParseIP(v) != nil` branch of
Go `validCookieDomain` (the IPv6 case is excluded there by its `:` check). -/
def isIPv4 (s : GoStr) : Bool :=
  match s.splitOn (byt 46) with
  | [a, b, c, d] => ipv4Part a && ipv4Part b && ipv4Part c && ipv4Part d
  | _ => false

/-- Go `validCookieDomain`. -/
def validCookieDomain (v : GoStr) : Bool :=
  isCookieDomainName v || isIPv4 v

/-- Strip one leading dot, as `Cookie.String` does before writing `Domain=`. -/
def stripDot : GoStr → GoStr
  | [] => []
  | c :: rest => if c.val = 46 then rest else c :: rest

/-- Decimal digits of a natural number. -/
def natDecimal (n : Nat) : GoStr := (Nat.toDigits 10 n).map (fun ch => byt ch.toNat)

/-- Decimal rendering of an integer (Go `fmt` `%d`). -/
def intDecimal (i : Int) : GoStr :=
  if i < 0 then byt 45 :: natDecimal i.natAbs else natDecimal i.natAbs

/-- Rendering of the `Expires` attribute.  Go formats the time in RFC-1123;
only determinism and injectivity of that format matter here, so the Unix
second count is rendered in decimal as a stand-in. -/
def formatExpires (t : Int) : GoStr := intDecimal t

/-- Go `net/http.Cookie.String`: `name=value` followed by the attributes, in
this fixed order, each prefixed by `; `.  An invalid domain is dropped (with
only a log line), `Expires` is emitted only for times after the Unix epoch,
`Max-Age=0` stands for any negative `MaxAge`. -/
def Cookie.String (c : Cookie) : GoStr :=
  sanitizeCookieName c.Name ++ [byt 61] ++ sanitizeCookieValue c.Value
  ++ (if 0 < c.Path.length then gostr "; Path=" ++ sanitizeCookiePath c.Path else [])
  ++ (if 0 < c.Domain.length then
        (if validCookieDomain c.Domain then gostr "; Domain=" ++ stripDot c.Domain else [])
      else [])
  ++ (if 0 < c.ExpiresUnix then gostr "; Expires=" ++ formatExpires c.ExpiresUnix else [])
  ++ (if 0 < c.MaxAge then gostr "; Max-Age=" ++ intDecimal c.MaxAge
      else if c.MaxAge < 0 then gostr "; Max-Age=0" else [])
  ++ (if c.HttpOnly then gostr "; HttpOnly" else [])
  ++ (if c.Secure then gostr "; Secure" else [])

/-- The package's `canonicalize`: the cookie with its value cleared,
serialized by `Cookie.String` (src/safecookie.go lines 95–99 and 354–358). -/
def canonicalize (c : Cookie) : GoStr :=
  Cookie.String { c with Value := [] }

/-! ## AEAD interface and the sealing/opening protocol

The Go package is written against the `cipher.AEAD` interface; it never looks
inside the primitive.  The embedding therefore abstracts the primitive the
same way: `NonceSize` is its fixed nonce length, `Seal nonce plaintext ad`
returns the ciphertext with the authentication overhead included (the Go
calls pass `nonce` as `dst`, so the stored bytes are `nonce ++ Seal …`), and
`Open nonce ciphertext ad` returns the plaintext or `none` on authentication
failure. -/

structure AEAD where
  NonceSize : Nat
  Seal : GoStr → GoStr → GoStr → GoStr
  Open : GoStr → GoStr → GoStr → Option GoStr

/-- Go `error` values the package can surface.  `errInvalidCookie` is the
package's own `ErrInvalidCookie`; `invalidKeyLength` is `aes.KeySizeError`;
`corruptInput` is `base64.CorruptInputError`; `authFailure` is the error of
`cipher.AEAD.Open`; `gobError` carries a gob decoder's message. -/
inductive GoError where
  | errInvalidCookie
  | invalidKeyLength
  | corruptInput
  | authFailure
  | gobError (msg : GoStr)
deriving DecidableEq

/-- Outcome of the in-place `Open` variants: success with the updated cookie,
an error with the (untouched) cookie as the source leaves it, or a Go runtime
panic (`slice bounds out of range`). -/
inductive OpenOutcome where
  | ok (c : Cookie)
  | err (e : GoError) (c : Cookie)
  | panicked
deriving DecidableEq

namespace FullAttr

/-- Full-attribute `SafeCookie.Seal` (src/safecookie.go lines 60–71): draw a
nonce, store `base64(nonce ‖ gcm.Seal(nonce, value, canonicalize(c)))` in the
cookie's value.  The random nonce is passed explicitly; the only Seal failure
in the source is a failing `rand.Read`, which cannot be reached once the
nonce bytes exist. -/
def Seal (A : AEAD) (nonce : GoStr) (c : Cookie) : Cookie :=
  { c with Value := b64encode (nonce ++ A.Seal nonce c.Value (canonicalize c)) }

/-- Full-attribute `SafeCookie.Open` (src/safecookie.go lines 75–92): decode
the value (error → `ErrInvalidCookie`), split off the nonce, decrypt against
the re-canonicalized attributes (error → `ErrInvalidCookie`), store the
plaintext.  The source has no length guard before `b[:NonceSize]` and
`b[NonceSize:]`; when the decoded value is shorter than the nonce size those
slice expressions panic, which the embedding records as `panicked`. -/
def Open (A : AEAD) (c : Cookie) : OpenOutcome :=
  match goDecodeString c.Value with
  | none => .err .errInvalidCookie c
  | some b =>
    if b.length < A.NonceSize then .panicked
    else
      match A.Open (b.take A.NonceSize) (b.drop A.NonceSize) (canonicalize c) with
      | none => .err .errInvalidCookie c
      | some pt => .ok { c with Value := pt }

end FullAttr

namespace Named

/-- Name-only `SafeCookie.Seal` (src/safecookie.go lines 157–167): seal the
given data with the cookie's name as associated data and store the encoded
token in the cookie's value. -/
def Seal (A : AEAD) (nonce data : GoStr) (c : Cookie) : Cookie :=
  { c with Value := b64encode (nonce ++ A.Seal nonce data c.Name) }

/-- Name-only `SafeCookie.Open` (src/safecookie.go lines 172–187): returns
the plaintext bytes; a decode error, a decoded length of at most the nonce
size, or an authentication failure all return `ErrInvalidCookie`. -/
def Open (A : AEAD) (c : Cookie) : Except GoError GoStr :=
  match goDecodeString c.Value with
  | none => .error .errInvalidCookie
  | some b =>
    if b.length ≤ A.NonceSize then .error .errInvalidCookie
    else
      match A.Open (b.take A.NonceSize) (b.drop A.NonceSize) c.Name with
      | none => .error .errInvalidCookie
      | some pt => .ok pt

end Named

namespace Gob

/-- Gob-variant `SafeCookie.Open` (src/safecookie.go lines 272–287); the gob
decoder (external collaborator) is a parameter `dec`, mirroring
`gob.NewDecoder(bytes.NewReader(b)).Decode(e)`.  The final line of the source
returns the decoder's result unmodified, so a decoder error is surfaced as
itself (`gobError`), not as `ErrInvalidCookie`. -/
def Open {α : Type} (A : AEAD) (dec : GoStr → Except GoStr α) (c : Cookie) :
    Except GoError α :=
  match goDecodeString c.Value with
  | none => .error .errInvalidCookie
  | some b =>
    if b.length ≤ A.NonceSize then .error .errInvalidCookie
    else
      match A.Open (b.take A.NonceSize) (b.drop A.NonceSize) c.Name with
      | none => .error .errInvalidCookie
      | some pt =>
        match dec pt with
        | .ok v => .ok v
        | .error e => .error (.gobError e)

end Gob

namespace Free

/-- Free-function `Seal` (src/safecookie.go lines 304–315), identical in body
to the full-attribute method. -/
def Seal (A : AEAD) (nonce : GoStr) (c : Cookie) : Cookie :=
  { c with Value := b64encode (nonce ++ A.Seal nonce c.Value (canonicalize c)) }

/-- Free-function `Open` (src/safecookie.go lines 319–336).  Unlike the
method variants it propagates the underlying errors verbatim: the base64
`CorruptInputError` on a decode failure and the `cipher.AEAD.Open` error on
an authentication failure — it never mentions `ErrInvalidCookie`.  It also
lacks the length guard, so a short decoded value panics. -/
def Open (A : AEAD) (c : Cookie) : OpenOutcome :=
  match goDecodeString c.Value with
  | none => .err .corruptInput c
  | some b =>
    if b.length < A.NonceSize then .panicked
    else
      match A.Open (b.take A.NonceSize) (b.drop A.NonceSize) (canonicalize c) with
      | none => .err .authFailure c
      | some pt => .ok { c with Value := pt }

end Free

/-- The `SafeCookie` record: a constructed AEAD capability. -/
structure SafeCookie where
  gcm : AEAD

/-- Free-function `AESGCM` (src/safecookie.go lines 339–351).  Its body calls
the external collaborators `aes.NewCipher`, which returns `aes.KeySizeError`
exactly when the key length is not 16, 24 or 32 bytes, and `cipher.NewGCM`,
which always succeeds on the 128-bit-block AES cipher.  The AES-GCM primitive
itself is abstracted as the key-indexed family `prim`. -/
def AESGCM (prim : GoStr → AEAD) (key : GoStr) : Except GoError AEAD :=
  if key.length = 16 ∨ key.length = 24 ∨ key.length = 32 then .ok (prim key)
  else .error .invalidKeyLength

/-- `New` (src/safecookie.go lines 43–55) and the identical `NewGCM` (lines
141–153 and 235–247): the same two collaborator calls as `AESGCM`, wrapped in
a `SafeCookie`. -/
def New (prim : GoStr → AEAD) (key : GoStr) : Except GoError SafeCookie :=
  if key.length = 16 ∨ key.length = 24 ∨ key.length = 32 then .ok ⟨prim key⟩
  else .error .invalidKeyLength

/-! ## A concrete AEAD instance for witnesses

The claim theorems are stated for any AEAD, with the contract facts of
`cipher.AEAD` (round-trip, ciphertext at least as long as the plaintext,
rejection of mismatched associated data) as hypotheses at the points where
the protocol uses them.  To discharge those hypotheses on concrete inputs the
witnesses instantiate the interface with `toyAead`: an executable dummy
primitive whose "ciphertext" is the plaintext followed by a tag recording the
associated data.  It provides no secrecy, but it satisfies the contract facts
decidably, which is all a witness needs. -/

/-- Tag of the toy primitive: the associated data and its length (mod 256). -/
def toyTag (ad : GoStr) : GoStr := ad ++ [byt ad.length]

/-- Toy seal: plaintext followed by the tag. -/
def toySeal (_nonce pt ad : GoStr) : GoStr := pt ++ toyTag ad

/-- Toy open: check that the ciphertext ends with the expected tag and strip
it; otherwise fail like a GCM authentication failure. -/
def toyOpen (_nonce ct ad : GoStr) : Option GoStr :=
  if (toyTag ad).length ≤ ct.length ∧
     ct.drop (ct.length - (toyTag ad).length) = toyTag ad
  then some (ct.take (ct.length - (toyTag ad).length))
  else none

/-- The toy AEAD with the 12-byte GCM nonce size. -/
def toyAead : AEAD := ⟨12, toySeal, toyOpen⟩

/-- A 12-byte nonce. -/
def nonce12 : GoStr := gostr "abcdefghijkl"

/-- Another 12-byte nonce, distinct from `nonce12`. -/
def nonce12b : GoStr := gostr "ABCDEFGHIJKL"

/-- The cookie of the repository's tests: name `wingle`, a full attribute
set, and the payload `this is a secret` as its value. -/
def wingleCookie : Cookie :=
  { Name := gostr "wingle", Value := gostr "this is a secret",
    Path := gostr "/", Domain := gostr "example.com",
    ExpiresUnix := 99, MaxAge := 0, Secure := true, HttpOnly := true }

/-- The same cookie with its name changed to `wongle`, as in the repository's
`TestBadAttribute`. -/
def wongleCookie : Cookie := { wingleCookie with Name := gostr "wongle" }

/-! ## Shared lemmas about the protocol -/

/-- Replacing the value does not change the canonicalization, since
`canonicalize` clears the value before serializing. -/
theorem canonicalize_set_value (c : Cookie) (v : GoStr) :
    canonicalize { c with Value := v } = canonicalize c := rfl

/-- Opening a just-sealed cookie (full-attribute variant) restores it, given
the AEAD contract facts at the point of use. -/
theorem fullAttr_open_seal (A : AEAD) (nonce : GoStr) (c : Cookie)
    (hns : nonce.length = A.NonceSize)
    (hrt : A.Open nonce (A.Seal nonce c.Value (canonicalize c)) (canonicalize c)
      = some c.Value) :
    FullAttr.Open A (FullAttr.Seal A nonce c) = .ok c := by
  unfold FullAttr.Open FullAttr.Seal
  simp only [canonicalize_set_value]
  rw [goDecodeString_encode]
  have h1 : ¬ (nonce ++ A.Seal nonce c.Value (canonicalize c)).length < A.NonceSize := by
    rw [List.length_append]
    omega
  dsimp only
  rw [if_neg h1, ← hns, List.take_left, List.drop_left, hrt]

/-! ## C1: round-trip -/

/-- C1: for every AEAD (hence every valid key), payload and cookie context,
sealing and then opening under the same context succeeds and restores the
cookie exactly, and the sealed value differs from the original payload.  The
`cipher.AEAD` contract facts — the primitive round-trips and its ciphertext
is at least as long as the plaintext — appear as hypotheses at the point of
use, as does the positivity of the nonce size. -/
theorem c1_seal_open_round_trip (A : AEAD) (nonce : GoStr) (c : Cookie)
    (hns : nonce.length = A.NonceSize) (hpos : 1 ≤ A.NonceSize)
    (hrt : A.Open nonce (A.Seal nonce c.Value (canonicalize c)) (canonicalize c)
      = some c.Value)
    (hlen : c.Value.length ≤ (A.Seal nonce c.Value (canonicalize c)).length) :
    FullAttr.Open A (FullAttr.Seal A nonce c) = .ok c ∧
    (FullAttr.Seal A nonce c).Value ≠ c.Value := by
  refine ⟨fullAttr_open_seal A nonce c hns hrt, ?_⟩
  intro h
  have hl := congrArg List.length h
  simp only [FullAttr.Seal] at hl
  have h2 := b64encode_length_gt (nonce ++ A.Seal nonce c.Value (canonicalize c))
    (by rw [List.length_append]; omega)
  rw [List.length_append] at h2
  omega

/-- Witness for C1: toy AEAD, fixed nonce, the repository's test cookie
(`wingle`, payload `this is a secret`). -/
theorem c1_seal_open_round_trip_witness :
    FullAttr.Open toyAead (FullAttr.Seal toyAead nonce12 wingleCookie) = .ok wingleCookie ∧
    (FullAttr.Seal toyAead nonce12 wingleCookie).Value ≠ wingleCookie.Value :=
  c1_seal_open_round_trip toyAead nonce12 wingleCookie (by decide) (by decide)
    (by decide) (by decide)

/-! ## C8: nonce freshness makes tokens differ -/

/-- C8: sealing the same payload under the same context twice, with the two
freshly drawn nonces as explicit inputs, produces different tokens whenever
the nonces differ, and each token independently opens back to the original
cookie.  The AEAD contract facts appear as hypotheses at the points of use. -/
theorem c8_two_seals_differ (A : AEAD) (n1 n2 : GoStr) (c : Cookie)
    (hne : n1 ≠ n2) (hl1 : n1.length = A.NonceSize) (hl2 : n2.length = A.NonceSize)
    (hrt1 : A.Open n1 (A.Seal n1 c.Value (canonicalize c)) (canonicalize c)
      = some c.Value)
    (hrt2 : A.Open n2 (A.Seal n2 c.Value (canonicalize c)) (canonicalize c)
      = some c.Value) :
    (FullAttr.Seal A n1 c).Value ≠ (FullAttr.Seal A n2 c).Value ∧
    FullAttr.Open A (FullAttr.Seal A n1 c) = .ok c ∧
    FullAttr.Open A (FullAttr.Seal A n2 c) = .ok c := by
  refine ⟨?_, fullAttr_open_seal A n1 c hl1 hrt1, fullAttr_open_seal A n2 c hl2 hrt2⟩
  intro h
  simp only [FullAttr.Seal] at h
  have hd := congrArg b64decode h
  rw [b64_decode_encode, b64_decode_encode] at hd
  have hcat := Option.some.inj hd
  have hlen12 : n1.length = n2.length := by rw [hl1, hl2]
  have ht := congrArg (List.take A.NonceSize) hcat
  rw [← hl1] at ht
  nth_rewrite 2 [hlen12] at ht
  rw [List.take_left, List.take_left] at ht
  exact hne ht

/-- Witness for C8: the two fixed distinct nonces on the test cookie. -/
theorem c8_two_seals_differ_witness :
    (FullAttr.Seal toyAead nonce12 wingleCookie).Value
      ≠ (FullAttr.Seal toyAead nonce12b wingleCookie).Value ∧
    FullAttr.Open toyAead (FullAttr.Seal toyAead nonce12 wingleCookie) = .ok wingleCookie ∧
    FullAttr.Open toyAead (FullAttr.Seal toyAead nonce12b wingleCookie) = .ok wingleCookie :=
  c8_two_seals_differ toyAead nonce12 nonce12b wingleCookie (by decide) (by decide)
    (by decide) (by decide) (by decide)

/-! ## C6: token format -/

/-- Bytes legal in a cookie value for the purposes of C6: not `;` and not
whitespace (space, tab, newline, carriage return). -/
def cookieValueSafe (s : GoStr) : Bool :=
  s.all (fun x => !(x.val = 59 || x.val = 32 || x.val = 9 || x.val = 10 || x.val = 13))

set_option maxRecDepth 10000 in
/-- No base64 alphabet byte is `;` or whitespace. -/
theorem b64chars_cookie_safe :
    ∀ x ∈ b64chars,
      (!(x.val = 59 || x.val = 32 || x.val = 9 || x.val = 10 || x.val = 13)) = true := by
  decide

/-- C6: the token a successful Seal writes is exactly the URL-safe base64
encoding of nonce ‖ ciphertext-with-tag, decoding it recovers precisely those
bytes, the nonce occupies the first `NonceSize` bytes, and the token contains
no `;` and no whitespace. -/
theorem c6_token_format (A : AEAD) (nonce : GoStr) (c : Cookie)
    (hns : nonce.length = A.NonceSize) :
    (FullAttr.Seal A nonce c).Value
      = b64encode (nonce ++ A.Seal nonce c.Value (canonicalize c)) ∧
    goDecodeString (FullAttr.Seal A nonce c).Value
      = some (nonce ++ A.Seal nonce c.Value (canonicalize c)) ∧
    (nonce ++ A.Seal nonce c.Value (canonicalize c)).take A.NonceSize = nonce ∧
    cookieValueSafe (FullAttr.Seal A nonce c).Value = true := by
  refine ⟨rfl, ?_, ?_, ?_⟩
  · simp only [FullAttr.Seal]
    exact goDecodeString_encode _
  · rw [← hns]
    exact List.take_left _ _
  · simp only [FullAttr.Seal, cookieValueSafe, List.all_eq_true]
    intro x hx
    rcases b64encode_mem _ x hx with h | h
    · exact b64chars_cookie_safe x h
    · subst h
      decide

/-- Witness for C6 on the test cookie and fixed nonce. -/
theorem c6_token_format_witness :
    (FullAttr.Seal toyAead nonce12 wingleCookie).Value
      = b64encode (nonce12 ++ toyAead.Seal nonce12 wingleCookie.Value (canonicalize wingleCookie)) ∧
    goDecodeString (FullAttr.Seal toyAead nonce12 wingleCookie).Value
      = some (nonce12 ++ toyAead.Seal nonce12 wingleCookie.Value (canonicalize wingleCookie)) ∧
    (nonce12 ++ toyAead.Seal nonce12 wingleCookie.Value (canonicalize wingleCookie)).take
      toyAead.NonceSize = nonce12 ∧
    cookieValueSafe (FullAttr.Seal toyAead nonce12 wingleCookie).Value = true :=
  c6_token_format toyAead nonce12 wingleCookie (by decide)

/-! ## C9: frame conditions -/

/-- C9: Seal changes only the cookie's value — name, path, domain, expiry and
flags are untouched — and whenever Open returns an error the cookie it leaves
behind is exactly the input cookie (the error outcome carries no plaintext by
construction, as in the source, where every error path returns before the
assignment to `c.Value`). -/
theorem c9_frame (A : AEAD) (nonce : GoStr) (c res : Cookie) (e : GoError) :
    ((FullAttr.Seal A nonce c).Name = c.Name ∧
     (FullAttr.Seal A nonce c).Path = c.Path ∧
     (FullAttr.Seal A nonce c).Domain = c.Domain ∧
     (FullAttr.Seal A nonce c).ExpiresUnix = c.ExpiresUnix ∧
     (FullAttr.Seal A nonce c).MaxAge = c.MaxAge ∧
     (FullAttr.Seal A nonce c).Secure = c.Secure ∧
     (FullAttr.Seal A nonce c).HttpOnly = c.HttpOnly) ∧
    (FullAttr.Open A c = .err e res → res = c) := by
  refine ⟨⟨rfl, rfl, rfl, rfl, rfl, rfl, rfl⟩, ?_⟩
  intro h
  unfold FullAttr.Open at h
  split at h
  · cases h
    rfl
  · split at h
    · cases h
    · split at h
      · cases h
        rfl
      · cases h

/-- A cookie whose value is not base64 (the repository's bad-encoding shape). -/
def starCookie : Cookie := { wingleCookie with Value := gostr "****" }

/-- Witness for C9: frame equations of Seal on the test cookie, and the
error-preservation implication discharged at a cookie whose opening fails. -/
theorem c9_frame_witness :
    ((FullAttr.Seal toyAead nonce12 starCookie).Name = starCookie.Name ∧
     (FullAttr.Seal toyAead nonce12 starCookie).Path = starCookie.Path ∧
     (FullAttr.Seal toyAead nonce12 starCookie).Domain = starCookie.Domain ∧
     (FullAttr.Seal toyAead nonce12 starCookie).ExpiresUnix = starCookie.ExpiresUnix ∧
     (FullAttr.Seal toyAead nonce12 starCookie).MaxAge = starCookie.MaxAge ∧
     (FullAttr.Seal toyAead nonce12 starCookie).Secure = starCookie.Secure ∧
     (FullAttr.Seal toyAead nonce12 starCookie).HttpOnly = starCookie.HttpOnly) ∧
    starCookie = starCookie :=
  ⟨(c9_frame toyAead nonce12 starCookie starCookie .errInvalidCookie).1,
   (c9_frame toyAead nonce12 starCookie starCookie .errInvalidCookie).2 (by decide)⟩

/-! ## C5: key length validation -/

/-- C5: for any AEAD family, construction succeeds exactly on keys of 16, 24
or 32 bytes and fails with the invalid-key-length error on every other
length; the constructors are pure functions, so construction has no effect
beyond the returned value. -/
theorem c5_key_length_validation (prim : GoStr → AEAD) (key : GoStr) :
    ((key.length = 16 ∨ key.length = 24 ∨ key.length = 32) →
       AESGCM prim key = .ok (prim key) ∧ New prim key = .ok ⟨prim key⟩) ∧
    (¬(key.length = 16 ∨ key.length = 24 ∨ key.length = 32) →
       AESGCM prim key = .error .invalidKeyLength ∧
       New prim key = .error .invalidKeyLength) := by
  constructor
  · intro h
    unfold AESGCM New
    rw [if_pos h, if_pos h]
    exact ⟨rfl, rfl⟩
  · intro h
    unfold AESGCM New
    rw [if_neg h, if_neg h]
    exact ⟨rfl, rfl⟩

/-- The 16-byte key of the repository's tests. -/
def key16 : GoStr := gostr "yellow submarine"

/-- A 15-byte key. -/
def key15 : GoStr := gostr "yellow submarin"

/-- Witness for C5: the 16-byte test key succeeds, the 15-byte key fails
with the invalid-key-length error. -/
theorem c5_key_length_validation_witness :
    (AESGCM (fun _ => toyAead) key16 = .ok toyAead ∧
     New (fun _ => toyAead) key16 = .ok ⟨toyAead⟩) ∧
    (AESGCM (fun _ => toyAead) key15 = .error .invalidKeyLength ∧
     New (fun _ => toyAead) key15 = .error .invalidKeyLength) :=
  ⟨(c5_key_length_validation (fun _ => toyAead) key16).1 (by decide),
   (c5_key_length_validation (fun _ => toyAead) key15).2 (by decide)⟩

/-! ## C10: gob decoder errors pass through -/

/-- C10: in the gob variant, when the value decodes and authenticates but the
gob decoder fails on the authenticated plaintext, Open returns the decoder's
own error unmodified — it is not collapsed into `ErrInvalidCookie`. -/
theorem c10_gob_error_passthrough {α : Type} (A : AEAD) (dec : GoStr → Except GoStr α)
    (c : Cookie) (b pt e : GoStr)
    (hdec : goDecodeString c.Value = some b)
    (hlen : A.NonceSize < b.length)
    (hopen : A.Open (b.take A.NonceSize) (b.drop A.NonceSize) c.Name = some pt)
    (hgob : dec pt = .error e) :
    Gob.Open A dec c = .error (.gobError e) ∧
    GoError.gobError e ≠ GoError.errInvalidCookie := by
  constructor
  · unfold Gob.Open
    rw [hdec]
    dsimp only
    rw [if_neg (by omega), hopen]
    dsimp only
    rw [hgob]
  · intro h
    cases h

/-- Gob payload bytes for the C10 witness. -/
def gobPayload : GoStr := gostr "payload"

/-- A gob decoder error message. -/
def gobMsg : GoStr := gostr "gob: wrong type"

/-- A failing gob decoder (external collaborator) for the C10 witness. -/
def gobDec : GoStr → Except GoStr Unit := fun _ => .error gobMsg

/-- A cookie holding a well-formed, authentic token for the gob variant. -/
def gobCookie : Cookie :=
  { Name := gostr "session",
    Value := b64encode (nonce12 ++ toySeal nonce12 gobPayload (gostr "session")),
    Path := [], Domain := [], ExpiresUnix := 0, MaxAge := 0,
    Secure := false, HttpOnly := false }

/-- Witness for C10: authenticated token, failing decoder. -/
theorem c10_gob_error_passthrough_witness :
    Gob.Open toyAead gobDec gobCookie = .error (.gobError gobMsg) ∧
    GoError.gobError gobMsg ≠ GoError.errInvalidCookie :=
  c10_gob_error_passthrough toyAead gobDec gobCookie
    (nonce12 ++ toySeal nonce12 gobPayload (gostr "session")) gobPayload gobMsg
    (by decide) (by decide) (by decide) (by rfl)

/-! ## C2: behaviour on short decoded values -/

/-- A cookie with an empty value: base64-decodes to zero bytes, fewer than
any nonce size. -/
def emptyValueCookie : Cookie :=
  { Name := gostr "wingle", Value := [], Path := [], Domain := [],
    ExpiresUnix := 0, MaxAge := 0, Secure := false, HttpOnly := false }

/-- C2: evaluation at the failing input.  The full-attribute `Open` (which
has no length guard before its slice expressions) panics on a value that
decodes to fewer bytes than the nonce size, while the name-only `Open` (which
has the `len(b) <= NonceSize` guard the spec describes) returns
`ErrInvalidCookie` on the same cookie. -/
theorem c2_short_value_crash :
    FullAttr.Open toyAead emptyValueCookie = .panicked ∧
    Named.Open toyAead emptyValueCookie = .error .errInvalidCookie := by
  constructor
  · decide
  · rfl

/-! ## C3: error uniformity of the free-function Open -/

/-- The repository's `TestBadEncoding` input: a freshly sealed token with
`**@3` appended, making the value invalid base64. -/
def badEncodingCookie : Cookie :=
  { wingleCookie with
    Value := (Free.Seal toyAead nonce12 wingleCookie).Value ++ gostr "**@3" }

/-- C3: evaluation at the failing input.  The free-function `Open` returns
the base64 `CorruptInputError` verbatim — a distinct error value, not the
uniform `ErrInvalidCookie` its own test expects. -/
theorem c3_free_open_distinct_error :
    Free.Open toyAead badEncodingCookie = .err .corruptInput badEncodingCookie ∧
    GoError.corruptInput ≠ GoError.errInvalidCookie := by
  constructor
  · decide
  · decide

/-! ## C4 and C7: canonicalization collisions and the amended statements

`net/http.Cookie.String` sanitizes attribute content: a `\n` or `\r` in the
name becomes `-`, invalid path/value bytes are dropped, an invalid domain is
dropped entirely.  Two different attribute sets can therefore canonicalize to
the same byte string, which breaks both the injectivity claim (C7) and the
universal tamper-evidence claim (C4). -/

/-- A cookie whose name contains a newline. -/
def crlfCookie : Cookie :=
  { Name := gostr "a\nb", Value := gostr "secret", Path := [], Domain := [],
    ExpiresUnix := 0, MaxAge := 0, Secure := false, HttpOnly := false }

/-- The same cookie with a carriage return in place of the newline. -/
def crCookie : Cookie := { crlfCookie with Name := gostr "a\rb" }

/-- The same cookie with the sanitized form of those names. -/
def dashCookie : Cookie := { crlfCookie with Name := gostr "a-b" }

/-- Counterexample to C7: two cookies that differ in the name — an observable
non-value attribute — yet canonicalize to the same byte string, because the
name sanitizer maps both `a\nb` and `a\rb` to `a-b`. -/
theorem c7_canonicalize_collision :
    crlfCookie ≠ crCookie ∧
    crlfCookie.Name ≠ crCookie.Name ∧
    canonicalize crlfCookie = canonicalize crCookie := by
  refine ⟨by decide, by decide, by decide⟩

/-- Names are clean when they contain no byte the name sanitizer rewrites. -/
def cleanName (n : GoStr) : Prop := ∀ b ∈ n, b.val ≠ 10 ∧ b.val ≠ 13

instance (n : GoStr) : Decidable (cleanName n) := by
  unfold cleanName
  infer_instance

/-- The name sanitizer is the identity on clean names. -/
theorem sanitizeName_id_of_clean {n : GoStr} (h : cleanName n) :
    sanitizeCookieName n = n := by
  induction n with
  | nil => rfl
  | cons a t ih =>
    have ha := h a (List.mem_cons_self a t)
    have ht := ih (fun b hb => h b (List.mem_cons_of_mem a hb))
    simp only [sanitizeCookieName, List.map_cons] at ht ⊢
    rw [if_neg (not_or.mpr ⟨ha.1, ha.2⟩), ht]

/-- C7 amended: the canonicalization is a function (total and deterministic
by construction) and it is injective in the name on sanitization-clean
names: two cookies that agree on every other attribute but differ in their
(clean) names canonicalize to different byte strings.  Full injectivity over
arbitrary attribute bytes fails (see the collision counterexample). -/
theorem c7_canonicalize_name_injective (c c' : Cookie)
    (hc : cleanName c.Name) (hc' : cleanName c'.Name)
    (hP : c.Path = c'.Path) (hD : c.Domain = c'.Domain)
    (hE : c.ExpiresUnix = c'.ExpiresUnix) (hM : c.MaxAge = c'.MaxAge)
    (hS : c.Secure = c'.Secure) (hH : c.HttpOnly = c'.HttpOnly)
    (hN : c.Name ≠ c'.Name) :
    canonicalize c ≠ canonicalize c' := by
  intro h
  apply hN
  unfold canonicalize Cookie.String at h
  dsimp only at h
  rw [hP, hD, hE, hM, hS, hH, sanitizeName_id_of_clean hc,
    sanitizeName_id_of_clean hc'] at h
  simp only [List.append_assoc] at h
  exact List.append_cancel_right h

set_option maxRecDepth 100000 in
/-- Witness for the amended C7: `wingle` and `wongle` with identical other
attributes canonicalize differently. -/
theorem c7_canonicalize_name_injective_witness :
    canonicalize wingleCookie ≠ canonicalize wongleCookie :=
  c7_canonicalize_name_injective wingleCookie wongleCookie (by decide) (by decide)
    rfl rfl rfl rfl rfl rfl (by decide)

/-- The sealed `crlfCookie` token moved onto `dashCookie`, whose name differs
from the sealing context's name in exactly that one field. -/
def c4TamperedCookie : Cookie :=
  { dashCookie with Value := (FullAttr.Seal toyAead nonce12 crlfCookie).Value }

/-- Counterexample to C4: the tampered cookie differs from the sealing
context in exactly the name, yet Open succeeds and returns the original
payload instead of `ErrInvalidCookie`, because both names canonicalize to
`a-b` and the associated data therefore matches. -/
theorem c4_tamper_not_detected :
    c4TamperedCookie.Name ≠ crlfCookie.Name ∧
    c4TamperedCookie.Path = crlfCookie.Path ∧
    c4TamperedCookie.Domain = crlfCookie.Domain ∧
    c4TamperedCookie.ExpiresUnix = crlfCookie.ExpiresUnix ∧
    c4TamperedCookie.MaxAge = crlfCookie.MaxAge ∧
    c4TamperedCookie.Secure = crlfCookie.Secure ∧
    c4TamperedCookie.HttpOnly = crlfCookie.HttpOnly ∧
    c4TamperedCookie.Value = (FullAttr.Seal toyAead nonce12 crlfCookie).Value ∧
    FullAttr.Open toyAead c4TamperedCookie
      = .ok { c4TamperedCookie with Value := crlfCookie.Value } := by
  repeat' apply And.intro
  all_goals decide

/-- C4 amended: opening a sealed token under a modified context returns
`ErrInvalidCookie` provided the AEAD rejects the re-canonicalized associated
data — which a real AEAD does whenever the canonicalizations differ, i.e.
whenever the changed field survives sanitization (for example any change of a
clean name, as in the repository's `wingle`/`wongle` test). -/
theorem c4_context_tamper_invalid (A : AEAD) (nonce : GoStr) (c c' : Cookie)
    (hv : c'.Value = (FullAttr.Seal A nonce c).Value)
    (hns : nonce.length = A.NonceSize)
    (hauth : A.Open nonce (A.Seal nonce c.Value (canonicalize c)) (canonicalize c')
      = none) :
    FullAttr.Open A c' = .err .errInvalidCookie c' := by
  unfold FullAttr.Open
  rw [hv]
  simp only [FullAttr.Seal]
  rw [goDecodeString_encode]
  dsimp only
  rw [if_neg (by rw [List.length_append]; omega), ← hns, List.take_left,
    List.drop_left, hauth]

/-- The sealed `wingle` token moved onto the `wongle` cookie. -/
def wongleTampered : Cookie :=
  { wongleCookie with Value := (FullAttr.Seal toyAead nonce12 wingleCookie).Value }

set_option maxRecDepth 100000 in
/-- Witness for the amended C4 at the repository's test scenario: the name
changed from `wingle` to `wongle` after sealing, and opening fails with
`ErrInvalidCookie`. -/
theorem c4_context_tamper_invalid_witness :
    FullAttr.Open toyAead wongleTampered = .err .errInvalidCookie wongleTampered :=
  c4_context_tamper_invalid toyAead nonce12 wingleCookie wongleTampered
    (by decide) (by decide) (by decide)
